import Mathlib

/-!
Shallow embedding of the drone-github-app plugin (package `plugin`,
files `plugin.go` and `util.go`) and proofs about its behaviour.

Go strings are modelled as Lean `String`; Go byte slices holding text as
`String`; Go maps `map[string]string` as association lists kept in first-
appearance key order with overwrite-on-insert (the lookup semantics of a Go
map); Go `error` results as `Except String`/`Option String`; library calls
(file system, base64, RSA parsing, JWT signing, HTTP, JSON unmarshalling of
responses, secret store) as oracle fields of an `Env` record, so that every
definition stays executable.
-/

set_option maxRecDepth 20000

deriving instance DecidableEq for Except

namespace Plugin

/-- White-space set of Go's `unicode.IsSpace` restricted to the Latin-1
range (the plugin's inputs are ASCII; higher Unicode space classes are not
modelled). -/
def goIsSpace (c : Char) : Bool :=
  c == ' ' || c == '\t' || c == '\n' || c == '\x0b' || c == '\x0c' || c == '\r' ||
  c == '\x85' || c == '\xa0'

/-- Go `strings.TrimSpace`. -/
def trimSpace (s : String) : String :=
  String.mk (((s.data.dropWhile goIsSpace).reverse.dropWhile goIsSpace).reverse)

/-- Worker for `splitChar`: accumulates the current field (reversed). -/
def splitCharAux (sep : Char) : List Char → List Char → List String
  | [], acc => [String.mk acc.reverse]
  | c :: cs, acc =>
      if c == sep then String.mk acc.reverse :: splitCharAux sep cs []
      else splitCharAux sep cs (c :: acc)

/-- Go `strings.Split` with a one-character separator (the only form the
plugin uses: "," ":" "\n").  `splitChar "" sep = [""]`, as in Go. -/
def splitChar (s : String) (sep : Char) : List String :=
  splitCharAux sep s.data []

/-- Go `strings.Contains` with a one-character needle. -/
def containsChar (s : String) (c : Char) : Bool :=
  s.data.any (· == c)

/-- Numeric value of a digit string. -/
def digitsVal (ds : List Char) : Nat :=
  ds.foldl (fun n c => n * 10 + (c.toNat - '0'.toNat)) 0

/-- Go `strconv.Atoi`: optional sign, at least one digit, 64-bit range
check.  The error text stands in for Go's `strconv.NumError` message. -/
def goAtoi (s : String) : Except String Int :=
  let signDigits : Bool × List Char :=
    match s.data with
    | '+' :: r => (false, r)
    | '-' :: r => (true, r)
    | r => (false, r)
  let neg := signDigits.1
  let ds := signDigits.2
  if ds.isEmpty then .error "invalid syntax"
  else if ds.all Char.isDigit then
    let v : Int := if neg then -(digitsVal ds : Int) else (digitsVal ds : Int)
    if v < -(2 ^ 63) ∨ 2 ^ 63 - 1 < v then .error "value out of range" else .ok v
  else .error "invalid syntax"

/-- Assignment `m[k] = v` on a Go `map[string]string` modelled as an
association list: an existing key is overwritten, a new key appended.
Lookup order of a Go map is irrelevant; the list fixes first-appearance
order to stay deterministic. -/
def insertOverwrite (m : List (String × String)) (k v : String) :
    List (String × String) :=
  if m.any (fun p => p.1 == k) then
    m.map (fun p => if p.1 == k then (k, v) else p)
  else m ++ [(k, v)]

/-- `parsePermissions` from `plugin.go`: comma-split the trimmed spec, each
non-empty item must split on ":" into exactly two non-empty trimmed parts;
duplicate resources overwrite (last wins).  `none` models Go's nil map
returned for the empty string.  Error texts drop the quote characters of
the Go `fmt.Errorf` format strings but keep their content. -/
def parsePermissions (permissionsStr : String) :
    Except String (Option (List (String × String))) :=
  if permissionsStr = "" then .ok none
  else
    let items := splitChar (trimSpace permissionsStr) ','
    let step : List (String × String) → String →
        Except String (List (String × String)) := fun permissions item0 =>
      let item := trimSpace item0
      if item = "" then .ok permissions
      else
        match splitChar item ':' with
        | [p1, p2] =>
            let resource := trimSpace p1
            let permission := trimSpace p2
            if resource = "" ∨ permission = "" then
              .error ("invalid permission format " ++ item ++
                ": resource and permission cannot be empty")
            else .ok (insertOverwrite permissions resource permission)
        | _ =>
            .error ("invalid permission format " ++ item ++
              ": expected resource:permission")
    match items.foldlM step [] with
    | .error e => .error e
    | .ok permissions => .ok (some permissions)

/-- Execution arguments of the plugin (struct `Args`); only the fields the
modelled logic reads. -/
structure Args where
  AppId : String := ""
  ClientId : String := ""
  Pem : String := ""
  PemFile : String := ""
  PemB64 : String := ""
  Installation : String := ""
  JwtFile : String := ""
  TokenFile : String := ""
  JsonFile : String := ""
  JwtSecret : String := ""
  TokenSecret : String := ""
  JsonSecret : String := ""
  SecretManager : String := ""
  RepoIDs : String := ""
  RepoNames : String := ""
  RepoIDsFile : String := ""
  Permissions : String := ""
deriving DecidableEq

/-- The value `parseRepositoryData` returns in its single-key result map:
either `repository_ids` (a list of ints) or `repositories` (names). -/
inductive RepoData where
  | repository_ids (ids : List Int)
  | repositories (names : List String)
deriving DecidableEq

/-- The `repoArgsCount` accumulator of `validateRepositoryArgs`. -/
def selectorCount (args : Args) : Nat :=
  (if args.RepoIDs ≠ "" then 1 else 0) +
  (if args.RepoNames ≠ "" then 1 else 0) +
  (if args.RepoIDsFile ≠ "" then 1 else 0)

/-- `validateRepositoryArgs` from `plugin.go`. -/
def validateRepositoryArgs (args : Args) : Except String Unit :=
  if 1 < selectorCount args then
    .error "only one of repo_ids, repo_names, or repo_ids_file can be specified"
  else if 0 < selectorCount args ∧ args.Installation = "" then
    .error "installation must be specified when using repository selection"
  else .ok ()

/-- The file branch of `parseRepositoryData`: split the content on
newlines, trim each line, and split a line containing commas further on
commas, trimming and dropping empty tokens. -/
def parseFileItems (content : String) : List String :=
  (splitChar content '\n').foldl
    (fun items line0 =>
      let line := trimSpace line0
      if line = "" then items
      else if containsChar line ',' then
        (splitChar line ',').foldl
          (fun its item0 =>
            let item := trimSpace item0
            if item = "" then its else its ++ [item])
          items
      else items ++ [line])
    []

/-- `parseRepositoryData` from `plugin.go`.  `readFile` models
`os.ReadFile`: the returned pair is (content, optional error).  `none`
models the `(nil, nil)` result for an empty item list. -/
def parseRepositoryData (readFile : String → String × Option String)
    (args : Args) : Except String (Option RepoData) :=
  let itemsE : Except String (List String × Bool) :=
    if args.RepoIDs ≠ "" then
      .ok (splitChar (trimSpace args.RepoIDs) ',', false)
    else if args.RepoNames ≠ "" then
      .ok (splitChar (trimSpace args.RepoNames) ',', true)
    else if args.RepoIDsFile ≠ "" then
      match (readFile args.RepoIDsFile).2 with
      | some e => .error ("failed to read repo_ids_file: " ++ e)
      | none => .ok (parseFileItems (readFile args.RepoIDsFile).1, false)
    else .ok ([], false)
  match itemsE with
  | .error e => .error e
  | .ok (items, useNames) =>
    if items.isEmpty then .ok none
    else if 500 < items.length then
      .error "repository list cannot contain more than 500 entries"
    else if useNames then
      let nameStep : List String → String → Except String (List String) :=
        fun acc name0 =>
          let name := trimSpace name0
          if name = "" then .ok acc
          else if containsChar name '/' then
            .error ("repository name " ++ name ++
              " should not include owner - use just the repository name")
          else .ok (acc ++ [name])
      match items.foldlM nameStep [] with
      | .error e => .error e
      | .ok names => .ok (some (.repositories names))
    else
      let idStep : List Int → String → Except String (List Int) :=
        fun acc idStr0 =>
          let idStr := trimSpace idStr0
          if idStr = "" then .ok acc
          else
            match goAtoi idStr with
            | .error e =>
                .error ("invalid repository ID " ++ idStr ++ ": " ++ e)
            | .ok id => .ok (acc ++ [id])
      match items.foldlM idStep [] with
      | .error e => .error e
      | .ok ids => .ok (some (.repository_ids ids))

/-- Response struct of the self-identity endpoint (`AppResponse`). -/
structure AppResponse where
  ID : Int := 0
  Slug : String := ""
deriving DecidableEq

/-- One repository of the token response (`TokenResponseRepository`). -/
structure TokenResponseRepository where
  ID : Int := 0
  Name : String := ""
deriving DecidableEq

/-- Response struct of the token-exchange endpoint (`TokenResponse`); its
zero value `{}` is Go's `var tokenData TokenResponse`. -/
structure TokenResponse where
  Token : String := ""
  ExpiresAt : String := ""
  Permissions : List (String × String) := []
  RepositorySelection : String := ""
  Repositories : List TokenResponseRepository := []
deriving DecidableEq

/-- The JSON output document (`JsonOutput`); its zero value `{}` is the
empty literal `JsonOutput{}`. -/
structure JsonOutput where
  Token : TokenResponse := {}
  Jwt : String := ""
  RepositoryCount : Nat := 0
  Permissions : List (String × String) := []
deriving DecidableEq

/-- The `jwt.MapClaims` literal built in `Exec`. -/
structure MapClaims where
  iat : Int
  exp : Int
  iss : String
deriving DecidableEq

/-- JSON string rendering; the inputs of this development contain no
characters that Go's encoder would escape. -/
def quoteJson (s : String) : String := "\"" ++ s ++ "\""

/-- Comma-join of rendered JSON fields. -/
def joinComma : List String → String
  | [] => ""
  | [x] => x
  | x :: xs => x ++ "," ++ joinComma xs

/-- JSON object with the given already-rendered fields. -/
def jsonObj (fields : List String) : String :=
  "\x7b" ++ joinComma fields ++ "\x7d"

/-- JSON array with the given already-rendered elements. -/
def jsonArr (elems : List String) : String :=
  "[" ++ joinComma elems ++ "]"

/-- Insertion into a key-sorted association list. -/
def insertSorted (p : String × String) :
    List (String × String) → List (String × String)
  | [] => [p]
  | q :: qs => if p.1 ≤ q.1 then p :: q :: qs else q :: insertSorted p qs

/-- Key-sort of an association list; Go's `json.Marshal` writes map keys
in sorted order. -/
def sortPairs (m : List (String × String)) : List (String × String) :=
  m.foldl (fun acc p => insertSorted p acc) []

/-- Rendering of a `map[string]string` as Go's `json.Marshal` does
(keys sorted). -/
def renderPermMap (m : List (String × String)) : String :=
  jsonObj ((sortPairs m).map (fun p => quoteJson p.1 ++ ":" ++ quoteJson p.2))

/-- Rendering of the single `reqData` entry contributed by repository
data.  (Go renders a nil int slice as `null`; the plugin only produces nil
slices from all-blank inputs, which no claim exercises, so `[]` is kept.) -/
def renderRepoData : RepoData → String
  | .repository_ids ids =>
      quoteJson "repository_ids" ++ ":" ++ jsonArr (ids.map toString)
  | .repositories names =>
      quoteJson "repositories" ++ ":" ++ jsonArr (names.map quoteJson)

/-- The marshalled `reqData` body of `installationToken`: the
`permissions` entry (present iff the map is non-nil and non-empty) sorts
before either repository key. -/
def marshalTokenReqBody (repoData : Option RepoData)
    (permissions : Option (List (String × String))) : String :=
  let permFields : List String :=
    match permissions with
    | some p =>
        if 0 < p.length then
          [quoteJson "permissions" ++ ":" ++ renderPermMap p]
        else []
    | none => []
  let repoFields : List String :=
    match repoData with
    | some rd => [renderRepoData rd]
    | none => []
  jsonObj (permFields ++ repoFields)

/-- Marshalling of `TokenResponse` (field order of the struct;
`omitempty` on permissions, repository_selection and repositories). -/
def marshalTokenResponse (t : TokenResponse) : String :=
  jsonObj ([quoteJson "token" ++ ":" ++ quoteJson t.Token,
      quoteJson "expires_at" ++ ":" ++ quoteJson t.ExpiresAt] ++
    (if t.Permissions.isEmpty then []
     else [quoteJson "permissions" ++ ":" ++ renderPermMap t.Permissions]) ++
    (if t.RepositorySelection = "" then []
     else [quoteJson "repository_selection" ++ ":" ++
       quoteJson t.RepositorySelection]) ++
    (if t.Repositories.isEmpty then []
     else [quoteJson "repositories" ++ ":" ++
       jsonArr (t.Repositories.map (fun r =>
         jsonObj [quoteJson "id" ++ ":" ++ toString r.ID,
           quoteJson "name" ++ ":" ++ quoteJson r.Name]))]))

/-- Marshalling of `JsonOutput` (struct field order; `omitempty` on
repository_count and permissions).  The indentation whitespace of
`json.MarshalIndent` is not modelled. -/
def marshalJsonOutput (o : JsonOutput) : String :=
  jsonObj ([quoteJson "token" ++ ":" ++ marshalTokenResponse o.Token,
      quoteJson "jwt" ++ ":" ++ quoteJson o.Jwt] ++
    (if o.RepositoryCount = 0 then []
     else [quoteJson "repository_count" ++ ":" ++ toString o.RepositoryCount]) ++
    (if o.Permissions.isEmpty then []
     else [quoteJson "permissions" ++ ":" ++ renderPermMap o.Permissions]))

/-- The POST request `installationToken` builds; `bearer` is the JWT of
the `Authorization` header. -/
structure TokenRequest where
  url : String
  bearer : String
  body : String
  hasContentType : Bool
deriving DecidableEq

/-- URL of the token-exchange endpoint. -/
def accessTokensUrl (installation : String) : String :=
  "https://api.github.com/app/installations/" ++ installation ++ "/access_tokens"

/-- URL of the self-identity endpoint. -/
def appUrl : String := "https://api.github.com/app"

/-- Outcome of one `http.Client.Do` call plus the subsequent
`io.ReadAll` of the body. -/
inductive HttpOutcome where
  | transportError (msg : String)
  | readError (status : Nat) (msg : String)
  | response (status : Nat) (body : String)

/-- Result of a Go function returning `(T, error)` that can also crash:
`panicked` models a nil-pointer dereference at run time. -/
inductive GoResult (α : Type) where
  | ok (a : α)
  | err (msg : String)
  | panicked
deriving DecidableEq

/-- Result of `Exec` itself (`error` return value). -/
inductive GoOutcome where
  | ok
  | err (msg : String)
  | panicked
deriving DecidableEq

/-- Externally visible actions of a run. Informational log lines are not
traced except the skip warning the spec refers to. -/
inductive Effect where
  | netGet (url : String)
  | netPost (url : String) (body : String) (hasContentType : Bool)
  | fileWrite (path : String) (content : String)
  | secretWrite (name : String) (value : String)
  | logLine (msg : String)
deriving DecidableEq

/-- Oracles for the library and network calls the plugin makes.  `now` is
the instant of the run: `Exec` calls `time.Now()` twice in immediate
succession while building the claims; both reads are modelled at this one
instant.  The pairs returned by `readFile`/`b64decode` are
(content, optional error), as `os.ReadFile` and `DecodeString` return. -/
structure Env where
  now : Int
  readFile : String → String × Option String
  b64decode : String → String × Option String
  parseRSAPrivateKeyFromPEM : String → Except String Unit
  signedString : MapClaims → Except String String
  appEndpoint : String → HttpOutcome
  unmarshalApp : String → Except String AppResponse
  tokenEndpoint : TokenRequest → HttpOutcome
  unmarshalToken : String → Except String TokenResponse
  writeFile : String → String → Option String
  setSecretText : String → String → Option String

/-- `validateJWT` from `util.go`.  The source never inspects the status
code, and the error of `client.Do` is overwritten by the `io.ReadAll`
assignment, so a transport failure leaves `resp` nil and the
`resp.Body` access panics. -/
def validateJWT (env : Env) (jwt : String) : GoResult AppResponse :=
  match env.appEndpoint jwt with
  | .transportError _ => .panicked
  | .readError _ m => .err m
  | .response _ body =>
      match env.unmarshalApp body with
      | .ok r => .ok r
      | .error e => .err e

/-- The `permissions != nil && len(permissions) > 0` test of
`installationToken`. -/
def permsNonempty : Option (List (String × String)) → Bool
  | some p => decide (0 < p.length)
  | none => false

/-- Request construction of `installationToken`: `reqData` holds the
repository entry (when `repoData` is non-nil) and `permissions` (when
non-nil and non-empty); a body and the `Content-Type` header exist iff
`reqData` is non-empty. -/
def buildTokenRequest (jwt installation : String) (repoData : Option RepoData)
    (permissions : Option (List (String × String))) : TokenRequest :=
  let hasBody := repoData.isSome || permsNonempty permissions
  { url := accessTokensUrl installation
    bearer := jwt
    body := if hasBody then marshalTokenReqBody repoData permissions else ""
    hasContentType := hasBody }

/-- `installationToken` from `util.go`: the built request together with
the outcome of sending it (same response handling as `validateJWT`). -/
def installationToken (env : Env) (jwt installation : String)
    (repoData : Option RepoData)
    (permissions : Option (List (String × String))) :
    TokenRequest × GoResult TokenResponse :=
  let req := buildTokenRequest jwt installation repoData permissions
  (req,
    match env.tokenEndpoint req with
    | .transportError _ => .panicked
    | .readError _ m => .err m
    | .response _ body =>
        match env.unmarshalToken body with
        | .ok r => .ok r
        | .error e => .err e)

/-- What `Exec` returns and leaves behind: the Go error value, the claim
set of the assertion (when one was built), the token response in scope at
the output phase, and the trace of externally visible actions. -/
structure ExecResult where
  result : GoOutcome
  jwtClaims : Option MapClaims := none
  tokenData : TokenResponse := {}
  effects : List Effect := []
deriving DecidableEq

/-- PEM byte resolution of `Exec`: inline `Pem` first, else `PemFile`,
else `PemB64`; `none` when all three are empty.  A read or decode error is
only printed by the source while the (possibly empty) content is kept, so
the error component is dropped here. -/
def resolvePemBytes (env : Env) (args : Args) : Option String :=
  if args.Pem ≠ "" then some args.Pem
  else if args.PemFile ≠ "" then some (env.readFile args.PemFile).1
  else if args.PemB64 ≠ "" then some (env.b64decode args.PemB64).1
  else none

/-- The `jwt.MapClaims` literal of `Exec`: `iat` and `exp` come from two
consecutive `time.Now()` reads, both modelled at the instant `env.now`;
10 minutes is 600 seconds; `iss` is the Client ID when present, else the
App ID. -/
def buildClaims (env : Env) (args : Args) : MapClaims :=
  { iat := env.now
    exp := env.now + 600
    iss := if args.ClientId ≠ "" then args.ClientId else args.AppId }

/-- Sequencing of two output steps: each step yields its attempted
effects and an optional error; an error stops the chain (Go's early
`return err`). -/
def andThenStep (r : List Effect × Option String)
    (f : Unit → List Effect × Option String) : List Effect × Option String :=
  match r with
  | (es, some e) => (es, some e)
  | (es, none) => ((es ++ (f ()).1), (f ()).2)

/-- The `JwtFile` output block of `Exec`. -/
def jwtFileStep (env : Env) (args : Args) (jwtSigned : String) :
    List Effect × Option String :=
  if args.JwtFile ≠ "" then
    ([.fileWrite args.JwtFile jwtSigned], env.writeFile args.JwtFile jwtSigned)
  else ([], none)

/-- The `TokenFile` output block of `Exec`: with no installation the write
is skipped with a log warning. -/
def tokenFileStep (env : Env) (args : Args) (tokenData : TokenResponse) :
    List Effect × Option String :=
  if args.TokenFile ≠ "" then
    if args.Installation = "" then
      ([.logLine "requested TOKEN_FILE but no INSTALLATION specified, skipping"],
        none)
    else
      ([.fileWrite args.TokenFile tokenData.Token],
        env.writeFile args.TokenFile tokenData.Token)
  else ([], none)

/-- The `JsonFile` output block of `Exec`: the full output bundle is
marshalled. -/
def jsonFileStep (env : Env) (args : Args) (jwtSigned : String)
    (tokenData : TokenResponse) : List Effect × Option String :=
  if args.JsonFile ≠ "" then
    let jsonData : JsonOutput :=
      { Token := tokenData
        Jwt := jwtSigned
        RepositoryCount := tokenData.Repositories.length
        Permissions := tokenData.Permissions }
    let file := marshalJsonOutput jsonData
    ([.fileWrite args.JsonFile file], env.writeFile args.JsonFile file)
  else ([], none)

/-- The `JwtSecret` output block of `Exec`. -/
def jwtSecretStep (env : Env) (args : Args) (jwtSigned : String) :
    List Effect × Option String :=
  if args.JwtSecret ≠ "" then
    ([.secretWrite args.JwtSecret jwtSigned],
      env.setSecretText args.JwtSecret jwtSigned)
  else ([], none)

/-- The `TokenSecret` output block of `Exec`.  Unlike `tokenFileStep`
the source has no installation guard here: the token value in scope is
written even when it is empty. -/
def tokenSecretStep (env : Env) (args : Args) (tokenData : TokenResponse) :
    List Effect × Option String :=
  if args.TokenSecret ≠ "" then
    ([.secretWrite args.TokenSecret tokenData.Token],
      env.setSecretText args.TokenSecret tokenData.Token)
  else ([], none)

/-- The `JsonSecret` output block of `Exec`.  The source constructs an
empty `JsonOutput` literal here, so the empty bundle is marshalled. -/
def jsonSecretStep (env : Env) (args : Args) : List Effect × Option String :=
  if args.JsonSecret ≠ "" then
    let jsonData : JsonOutput := {}
    let file := marshalJsonOutput jsonData
    ([.secretWrite args.JsonSecret file], env.setSecretText args.JsonSecret file)
  else ([], none)

/-- The output fan-out of `Exec`, in source order. -/
def writeOutputs (env : Env) (args : Args) (jwtSigned : String)
    (tokenData : TokenResponse) : List Effect × Option String :=
  andThenStep (andThenStep (andThenStep (andThenStep (andThenStep
    (jwtFileStep env args jwtSigned)
    (fun _ => tokenFileStep env args tokenData))
    (fun _ => jsonFileStep env args jwtSigned tokenData))
    (fun _ => jwtSecretStep env args jwtSigned))
    (fun _ => tokenSecretStep env args tokenData))
    (fun _ => jsonSecretStep env args)

/-- The installation-token block of `Exec`: with an installation ID the
repository data (if any selector is set) and the permissions (if set) are
parsed and the exchange is attempted; otherwise `tokenData` keeps its
zero value.  The effect list holds the POST made, if any. -/
def tokenPhase (env : Env) (args : Args) (jwtSigned : String) :
    GoResult TokenResponse × List Effect :=
  if args.Installation ≠ "" then
    let repoDataE : Except String (Option RepoData) :=
      if args.RepoIDs ≠ "" ∨ args.RepoNames ≠ "" ∨ args.RepoIDsFile ≠ "" then
        parseRepositoryData env.readFile args
      else .ok none
    match repoDataE with
    | .error e => (.err e, [])
    | .ok repoData =>
      let permissionsE : Except String (Option (List (String × String))) :=
        if args.Permissions ≠ "" then parsePermissions args.Permissions
        else .ok none
      match permissionsE with
      | .error e => (.err e, [])
      | .ok permissions =>
        let r := installationToken env jwtSigned args.Installation repoData
          permissions
        (r.2, [.netPost r.1.url r.1.body r.1.hasContentType])
  else (.ok {}, [])

/-- Continuation of `Exec` after the signing key parsed: sign the claims,
validate the assertion, exchange it, fan out the outputs. -/
def execAfterKey (env : Env) (args : Args) (claims : MapClaims) : ExecResult :=
  match env.signedString claims with
  | .error e => { result := .err e, jwtClaims := some claims }
  | .ok jwtSigned =>
    match validateJWT env jwtSigned with
    | .panicked =>
        { result := .panicked, jwtClaims := some claims,
          effects := [.netGet appUrl] }
    | .err e =>
        { result := .err e, jwtClaims := some claims,
          effects := [.netGet appUrl] }
    | .ok _ =>
      match tokenPhase env args jwtSigned with
      | (.panicked, es) =>
          { result := .panicked, jwtClaims := some claims,
            effects := .netGet appUrl :: es }
      | (.err e, es) =>
          { result := .err e, jwtClaims := some claims,
            effects := .netGet appUrl :: es }
      | (.ok tokenData, es) =>
        match writeOutputs env args jwtSigned tokenData with
        | (oes, some e) =>
            { result := .err e, jwtClaims := some claims,
              tokenData := tokenData, effects := .netGet appUrl :: es ++ oes }
        | (oes, none) =>
            { result := .ok, jwtClaims := some claims,
              tokenData := tokenData, effects := .netGet appUrl :: es ++ oes }

/-- `Exec` from `plugin.go` (current revision): identity validation,
repository-selection validation, key resolution and parsing, claim
construction and signing, identity validation round-trip, optional token
exchange, output fan-out. -/
def Exec (env : Env) (args : Args) : ExecResult :=
  if args.AppId = "" ∧ args.ClientId = "" then
    { result := .err "either app_id or client_id needs to be set" }
  else if args.AppId ≠ "" ∧ args.ClientId ≠ "" then
    { result := .err "only one of app_id or client_id should be set, not both. Prefer client_id for future GHEC with Data Residency compatibility." }
  else
    match validateRepositoryArgs args with
    | .error e => { result := .err e }
    | .ok _ =>
      match resolvePemBytes env args with
      | none => { result := .err "one of pem, pam_file, or pem_b64 must be set" }
      | some bPem =>
        if bPem = "" then { result := .err "unable to parse pem" }
        else
          match env.parseRSAPrivateKeyFromPEM bPem with
          | .error e => { result := .err e }
          | .ok _ => execAfterKey env args (buildClaims env args)

/-- A token response the exchange oracle of `env0` answers with. -/
def tok0 : TokenResponse :=
  { Token := "TOKEN123"
    ExpiresAt := "2026-02-03T04:05:06Z"
    Permissions := [("contents", "read")]
    RepositorySelection := "selected"
    Repositories := [{ ID := 10, Name := "r1" }] }

/-- A concrete well-behaved environment: every library and network call
succeeds. -/
def env0 : Env :=
  { now := 1000
    readFile := fun _ => ("", none)
    b64decode := fun _ => ("", none)
    parseRSAPrivateKeyFromPEM := fun _ => .ok ()
    signedString := fun _ => .ok "SIGNEDJWT"
    appEndpoint := fun _ => .response 200 "APPBODY"
    unmarshalApp := fun _ => .ok { ID := 1, Slug := "my-app" }
    tokenEndpoint := fun _ => .response 201 "TOKENBODY"
    unmarshalToken := fun _ => .ok tok0
    writeFile := fun _ _ => none
    setSecretText := fun _ _ => none }

/-- Environment whose self-identity endpoint answers 401 with a body that
unmarshals into the zero `AppResponse` — as GitHub's JSON error body
`\x7b"message":"Bad credentials"\x7d` does, since `json.Unmarshal` ignores
unknown fields. -/
def env401 : Env :=
  { env0 with
    appEndpoint := fun _ => .response 401 "ERRBODY"
    unmarshalApp := fun _ => .ok { ID := 0, Slug := "" } }

/-- Environment whose self-identity endpoint suffers a transport error. -/
def envDown : Env :=
  { env0 with appEndpoint := fun _ => .transportError "connection refused" }

/-- Arguments with two key sources populated at once. -/
def argsTwoKeys : Args := { AppId := "1", Pem := "PEMDATA", PemB64 := "UEVN" }

/-- Arguments with no key source populated. -/
def argsNoKeys : Args := { AppId := "1" }

/-- Arguments requesting both the JSON file and the JSON secret. -/
def argsJson : Args :=
  { AppId := "1", Pem := "PEMDATA", Installation := "42",
    JsonFile := "out.json", JsonSecret := "blob" }

/-- The output bundle of a run of `argsJson` against `env0`. -/
def bundleJson : JsonOutput :=
  { Token := tok0
    Jwt := "SIGNEDJWT"
    RepositoryCount := 1
    Permissions := [("contents", "read")] }

/-- Arguments requesting token outputs without an installation ID. -/
def argsNoInstall : Args :=
  { AppId := "1", Pem := "PEMDATA", TokenFile := "tf", TokenSecret := "ts" }

/-- Arguments with both identity sources set. -/
def argsBothIds : Args := { AppId := "1", ClientId := "Iv1.x", Pem := "PEMDATA" }

/-- Arguments for a plain run identified by an App ID. -/
def argsPlain : Args := { AppId := "1", Pem := "PEMDATA" }

/-- Arguments with one selector and an installation ID. -/
def argsSelector : Args := { RepoIDs := "10,20", Installation := "42" }

/-- Arguments whose repository IDs come from a file. -/
def argsIdsFile : Args := { RepoIDsFile := "ids.txt" }

/-- A rendered JSON object is at least two characters long. -/
theorem jsonObj_length (fs : List String) : 2 ≤ (jsonObj fs).length := by
  rw [jsonObj, String.length_append, String.length_append]
  have h1 : ("\x7b" : String).length = 1 := rfl
  have h2 : ("\x7d" : String).length = 1 := rfl
  omega

/-- A rendered JSON object is never the empty string. -/
theorem jsonObj_ne_empty (fs : List String) : jsonObj fs ≠ "" := by
  intro h
  have hl := jsonObj_length fs
  rw [h] at hl
  exact absurd hl (by decide)

/-- The marshalled token-exchange body is never the empty string. -/
theorem marshalTokenReqBody_ne_empty (repoData : Option RepoData)
    (permissions : Option (List (String × String))) :
    marshalTokenReqBody repoData permissions ≠ "" :=
  jsonObj_ne_empty _

/-- Whenever `execAfterKey` runs, the claim set it records is exactly the
one it was given. -/
theorem execAfterKey_jwtClaims (env : Env) (args : Args) (claims : MapClaims) :
    (execAfterKey env args claims).jwtClaims = some claims := by
  unfold execAfterKey
  repeat' split
  all_goals rfl

/-- C4: the self-identity check of `validateJWT` does not behave as
specified: a non-2xx response whose body unmarshals into the identity
shape (as GitHub's JSON error bodies do) yields no error at all, and a
transport error is not returned as an error but crashes on the nil
response.  Only an unmarshal failure produces an error. -/
theorem validateJWT_ignores_status_and_transport :
    validateJWT env401 "ASSERTION" = .ok { ID := 0, Slug := "" } ∧
    validateJWT envDown "ASSERTION" = .panicked := ⟨rfl, rfl⟩

/-- C5: in a successful run that requests both JSON destinations, the
JSON file receives the marshalled output bundle of the run, but the JSON
secret receives the marshalled empty `JsonOutput` literal, which differs
from the bundle — the secret destination does not mirror the bundle. -/
theorem exec_json_secret_writes_empty_bundle :
    (Exec env0 argsJson).result = .ok ∧
    Effect.fileWrite "out.json" (marshalJsonOutput bundleJson) ∈
      (Exec env0 argsJson).effects ∧
    Effect.secretWrite "blob" (marshalJsonOutput {}) ∈
      (Exec env0 argsJson).effects ∧
    marshalJsonOutput {} ≠ marshalJsonOutput bundleJson := by decide

/-- C7: `parsePermissions` maps "contents:read,issues:write" to the two
expected pairs, rejects an item with more than one colon, and lets the
last occurrence of a duplicated resource win. -/
theorem parsePermissions_examples :
    parsePermissions "contents:read,issues:write" =
      .ok (some [("contents", "read"), ("issues", "write")]) ∧
    parsePermissions "contents:read:extra" =
      .error "invalid permission format contents:read:extra: expected resource:permission" ∧
    parsePermissions "contents:read,contents:write" =
      .ok (some [("contents", "write")]) := by decide

/-- C8: repository-ID file parsing is invariant under reformatting
between newline and comma delimiters: the file contents "1001\n1002,1003"
and "1001,1002,1003" parse to the same ordered sequence. -/
theorem parseRepositoryData_reformat_invariant :
    parseRepositoryData (fun _ => ("1001\n1002,1003", none)) argsIdsFile =
      .ok (some (.repository_ids [1001, 1002, 1003])) ∧
    parseRepositoryData (fun _ => ("1001,1002,1003", none)) argsIdsFile =
      .ok (some (.repository_ids [1001, 1002, 1003])) := by decide

/-- C3 counterexample: with both the inline PEM and the base64 PEM
populated, `Exec` does not return a key-material error — the run
succeeds, the inline source silently winning. -/
theorem exec_two_key_sources_no_error :
    argsTwoKeys.Pem ≠ "" ∧ argsTwoKeys.PemB64 ≠ "" ∧
    (Exec env0 argsTwoKeys).result = .ok := by decide

/-- C10 counterexample: with an empty installation ID and a requested
token secret, `Exec` persists the empty token value to the secret store
instead of skipping the destination. -/
theorem exec_token_secret_written_without_installation :
    argsNoInstall.Installation = "" ∧ argsNoInstall.TokenSecret ≠ "" ∧
    Effect.secretWrite "ts" "" ∈ (Exec env0 argsNoInstall).effects := by decide

/-- Every run of `Exec` records either no claim set (no assertion was
built) or exactly the claim set of `buildClaims`. -/
theorem exec_jwtClaims_cases (env : Env) (args : Args) :
    (Exec env args).jwtClaims = none ∨
    (Exec env args).jwtClaims = some (buildClaims env args) := by
  unfold Exec
  repeat' split
  all_goals first
    | exact Or.inl rfl
    | exact Or.inr (execAfterKey_jwtClaims env args (buildClaims env args))

/-- C1: with exactly one identity source set, any claim set `Exec` builds
for the Signed Assertion has `exp - iat = 600` seconds and `iss` equal to
the Client ID when set, otherwise the App ID. -/
theorem exec_jwt_claims_expiry_issuer (env : Env) (args : Args) (c : MapClaims)
    (hid : (args.AppId = "" ∧ args.ClientId ≠ "") ∨
      (args.AppId ≠ "" ∧ args.ClientId = ""))
    (hc : (Exec env args).jwtClaims = some c) :
    c.exp - c.iat = 600 ∧
    c.iss = (if args.ClientId ≠ "" then args.ClientId else args.AppId) := by
  rcases exec_jwtClaims_cases env args with h | h
  · rw [h] at hc; cases hc
  · rw [h] at hc
    injection hc with h2
    subst h2
    exact ⟨by simp [buildClaims], by simp [buildClaims]⟩

/-- C1 witness. -/
theorem exec_jwt_claims_expiry_issuer_witness :
    ((argsPlain.AppId = "" ∧ argsPlain.ClientId ≠ "") ∨
      (argsPlain.AppId ≠ "" ∧ argsPlain.ClientId = "")) ∧
    (Exec env0 argsPlain).jwtClaims =
      some { iat := 1000, exp := 1600, iss := "1" } ∧
    (({ iat := 1000, exp := 1600, iss := "1" } : MapClaims).exp -
      ({ iat := 1000, exp := 1600, iss := "1" } : MapClaims).iat = 600 ∧
     ({ iat := 1000, exp := 1600, iss := "1" } : MapClaims).iss =
      (if argsPlain.ClientId ≠ "" then argsPlain.ClientId else argsPlain.AppId)) :=
  ⟨Or.inr ⟨by decide, by decide⟩, by decide,
    exec_jwt_claims_expiry_issuer env0 argsPlain _
      (Or.inr ⟨by decide, by decide⟩) (by decide)⟩

/-- C2: with both identity sources set or both empty, `Exec` returns an
error with an empty effect trace — no network call, file write, secret
write or log line has happened. -/
theorem exec_identity_validation_no_effects (env : Env) (args : Args)
    (h : (args.AppId = "" ∧ args.ClientId = "") ∨
      (args.AppId ≠ "" ∧ args.ClientId ≠ "")) :
    (∃ e, (Exec env args).result = GoOutcome.err e) ∧
    (Exec env args).effects = [] := by
  rcases h with h | h
  · unfold Exec; rw [if_pos h]; exact ⟨⟨_, rfl⟩, rfl⟩
  · have h1 : ¬(args.AppId = "" ∧ args.ClientId = "") := fun hc => h.1 hc.1
    unfold Exec; rw [if_neg h1, if_pos h]; exact ⟨⟨_, rfl⟩, rfl⟩

/-- C2 witness. -/
theorem exec_identity_validation_no_effects_witness :
    ((argsBothIds.AppId = "" ∧ argsBothIds.ClientId = "") ∨
      (argsBothIds.AppId ≠ "" ∧ argsBothIds.ClientId ≠ "")) ∧
    ((∃ e, (Exec env0 argsBothIds).result = GoOutcome.err e) ∧
      (Exec env0 argsBothIds).effects = []) :=
  ⟨Or.inr ⟨by decide, by decide⟩,
    exec_identity_validation_no_effects env0 argsBothIds
      (Or.inr ⟨by decide, by decide⟩)⟩

/-- C3 amended: with exactly one identity source and passing repository
validation, `Exec` returns a key-material error when no key source is
populated, when the resolved bytes are empty, and when the bytes fail to
parse as an RSA key; a populated higher-priority source is simply used,
so no error arises from populating several sources. -/
theorem exec_key_material_errors (env : Env) (args : Args)
    (hid : (args.AppId = "" ∧ args.ClientId ≠ "") ∨
      (args.AppId ≠ "" ∧ args.ClientId = ""))
    (hrepo : validateRepositoryArgs args = .ok ()) :
    (args.Pem = "" ∧ args.PemFile = "" ∧ args.PemB64 = "" →
      (Exec env args).result = .err "one of pem, pam_file, or pem_b64 must be set") ∧
    (∀ bPem, resolvePemBytes env args = some bPem → bPem = "" →
      (Exec env args).result = .err "unable to parse pem") ∧
    (∀ bPem e, resolvePemBytes env args = some bPem → bPem ≠ "" →
      env.parseRSAPrivateKeyFromPEM bPem = .error e →
      (Exec env args).result = .err e) := by
  have h1 : ¬(args.AppId = "" ∧ args.ClientId = "") := by tauto
  have h2 : ¬(args.AppId ≠ "" ∧ args.ClientId ≠ "") := by tauto
  refine ⟨?_, ?_, ?_⟩
  · intro ⟨hp, hf, hb⟩
    have hres : resolvePemBytes env args = none := by
      simp [resolvePemBytes, hp, hf, hb]
    unfold Exec
    rw [if_neg h1, if_neg h2, hrepo, hres]
  · intro bPem hsome hempty
    unfold Exec
    rw [if_neg h1, if_neg h2, hrepo, hsome]
    simp [hempty]
  · intro bPem e hsome hne hrsa
    unfold Exec
    rw [if_neg h1, if_neg h2, hrepo, hsome]
    simp [hne, hrsa]

/-- C3 amended witness. -/
theorem exec_key_material_errors_witness :
    ((argsNoKeys.AppId = "" ∧ argsNoKeys.ClientId ≠ "") ∨
      (argsNoKeys.AppId ≠ "" ∧ argsNoKeys.ClientId = "")) ∧
    validateRepositoryArgs argsNoKeys = .ok () ∧
    (argsNoKeys.Pem = "" ∧ argsNoKeys.PemFile = "" ∧ argsNoKeys.PemB64 = "") ∧
    (Exec env0 argsNoKeys).result =
      .err "one of pem, pam_file, or pem_b64 must be set" :=
  ⟨Or.inr ⟨by decide, by decide⟩, by decide, ⟨rfl, rfl, rfl⟩,
    (exec_key_material_errors env0 argsNoKeys
      (Or.inr ⟨by decide, by decide⟩) (by decide)).1 ⟨rfl, rfl, rfl⟩⟩

/-- C6: `validateRepositoryArgs` rejects more than one populated
selection option, rejects any populated selection option without an
installation ID, and accepts at most one selection option together with
an installation ID. -/
theorem validateRepositoryArgs_spec (args : Args) :
    (1 < selectorCount args →
      validateRepositoryArgs args =
        .error "only one of repo_ids, repo_names, or repo_ids_file can be specified") ∧
    (0 < selectorCount args ∧ args.Installation = "" →
      ∃ e, validateRepositoryArgs args = .error e) ∧
    (selectorCount args ≤ 1 ∧ args.Installation ≠ "" →
      validateRepositoryArgs args = .ok ()) := by
  refine ⟨?_, ?_, ?_⟩
  · intro h
    simp [validateRepositoryArgs, h]
  · intro ⟨hpos, hinst⟩
    by_cases hg : 1 < selectorCount args
    · exact ⟨"only one of repo_ids, repo_names, or repo_ids_file can be specified",
        by simp [validateRepositoryArgs, hg]⟩
    · exact ⟨"installation must be specified when using repository selection",
        by simp [validateRepositoryArgs, hg, hpos, hinst]⟩
  · intro ⟨hle, hinst⟩
    have hg : ¬1 < selectorCount args := by omega
    simp [validateRepositoryArgs, hg, hinst]

/-- C6 witness. -/
theorem validateRepositoryArgs_spec_witness :
    (selectorCount argsSelector ≤ 1 ∧ argsSelector.Installation ≠ "") ∧
    validateRepositoryArgs argsSelector = .ok () :=
  ⟨⟨by decide, by decide⟩,
    (validateRepositoryArgs_spec argsSelector).2.2 ⟨by decide, by decide⟩⟩

/-- C9: a token-exchange call with neither repository data nor
permissions sends an empty body and no Content-Type header; a call with
repository data, or with a non-empty permission map, sends the marshalled
JSON body (never empty) and sets the Content-Type header. -/
theorem installationToken_body_content_type (env : Env)
    (jwt installation : String) (hinst : installation ≠ "") :
    ((installationToken env jwt installation none none).1.body = "" ∧
     (installationToken env jwt installation none none).1.hasContentType = false) ∧
    (∀ repoData permissions,
      repoData ≠ none ∨ (∃ p, permissions = some p ∧ p ≠ []) →
      (installationToken env jwt installation repoData permissions).1.body =
        marshalTokenReqBody repoData permissions ∧
      (installationToken env jwt installation repoData permissions).1.body ≠ "" ∧
      (installationToken env jwt installation repoData permissions).1.hasContentType
        = true) := by
  refine ⟨⟨rfl, rfl⟩, ?_⟩
  intro repoData permissions h
  have hbody : (repoData.isSome || permsNonempty permissions) = true := by
    rcases h with h | ⟨p, hp, hne⟩
    · cases repoData with
      | none => exact absurd rfl h
      | some rd => simp
    · subst hp
      simp [permsNonempty, List.length_pos, hne]
  have hreq : (installationToken env jwt installation repoData permissions).1 =
      { url := accessTokensUrl installation
        bearer := jwt
        body := marshalTokenReqBody repoData permissions
        hasContentType := true } := by
    show buildTokenRequest jwt installation repoData permissions = _
    simp [buildTokenRequest, hbody]
  rw [hreq]
  exact ⟨rfl, marshalTokenReqBody_ne_empty repoData permissions, rfl⟩

/-- C9 witness. -/
theorem installationToken_body_content_type_witness :
    ("42" : String) ≠ "" ∧
    ((installationToken env0 "SIGNEDJWT" "42" none none).1.body = "" ∧
     (installationToken env0 "SIGNEDJWT" "42" none none).1.hasContentType = false) ∧
    (installationToken env0 "SIGNEDJWT" "42"
      (some (.repository_ids [10, 20])) none).1.hasContentType = true :=
  ⟨by decide,
    (installationToken_body_content_type env0 "SIGNEDJWT" "42" (by decide)).1,
    ((installationToken_body_content_type env0 "SIGNEDJWT" "42" (by decide)).2
      (some (.repository_ids [10, 20])) none (Or.inl (by simp))).2.2⟩

/-- C10 amended: in a successful run with an empty installation ID, the
token fields keep their zero value, a requested token file is skipped
with a log warning, but a requested token secret is still written — with
the empty token value. -/
theorem exec_no_installation_outputs (env : Env) (args : Args) (j : String)
    (a : AppResponse)
    (hid : (args.AppId = "" ∧ args.ClientId ≠ "") ∨
      (args.AppId ≠ "" ∧ args.ClientId = ""))
    (hinst : args.Installation = "")
    (hsel : args.RepoIDs = "" ∧ args.RepoNames = "" ∧ args.RepoIDsFile = "")
    (hpem : args.Pem ≠ "")
    (hkey : env.parseRSAPrivateKeyFromPEM args.Pem = .ok ())
    (hsign : env.signedString (buildClaims env args) = .ok j)
    (happ : validateJWT env j = .ok a)
    (hjf : args.JwtFile = "") (hjsf : args.JsonFile = "")
    (hjs : args.JwtSecret = "") (hjss : args.JsonSecret = "")
    (htf : args.TokenFile ≠ "") (hts : args.TokenSecret ≠ "")
    (hsec : env.setSecretText args.TokenSecret "" = none) :
    (Exec env args).result = .ok ∧
    (Exec env args).tokenData = {} ∧
    (Exec env args).effects =
      [.netGet appUrl,
       .logLine "requested TOKEN_FILE but no INSTALLATION specified, skipping",
       .secretWrite args.TokenSecret ""] := by
  have h1 : ¬(args.AppId = "" ∧ args.ClientId = "") := by tauto
  have h2 : ¬(args.AppId ≠ "" ∧ args.ClientId ≠ "") := by tauto
  have hval : validateRepositoryArgs args = .ok () := by
    simp [validateRepositoryArgs, selectorCount, hsel.1, hsel.2.1, hsel.2.2]
  have hres : resolvePemBytes env args = some args.Pem := by
    simp [resolvePemBytes, hpem]
  have hx : Exec env args = execAfterKey env args (buildClaims env args) := by
    unfold Exec
    rw [if_neg h1, if_neg h2, hval, hres]
    simp [hpem, hkey]
  have htp : tokenPhase env args j = (.ok {}, []) := by
    simp [tokenPhase, hinst]
  have hw : writeOutputs env args j {} =
      ([.logLine "requested TOKEN_FILE but no INSTALLATION specified, skipping",
        .secretWrite args.TokenSecret ""], none) := by
    simp [writeOutputs, andThenStep, jwtFileStep, tokenFileStep, jsonFileStep,
      jwtSecretStep, tokenSecretStep, jsonSecretStep, hjf, hjsf, hjs, hjss,
      htf, hts, hinst, hsec]
  rw [hx]
  unfold execAfterKey
  rw [hsign]
  simp only [happ, htp, hw]
  simp

/-- C10 amended witness. -/
theorem exec_no_installation_outputs_witness :
    argsNoInstall.Installation = "" ∧ argsNoInstall.TokenFile ≠ "" ∧
    argsNoInstall.TokenSecret ≠ "" ∧
    ((Exec env0 argsNoInstall).result = .ok ∧
     (Exec env0 argsNoInstall).tokenData = {} ∧
     (Exec env0 argsNoInstall).effects =
       [.netGet appUrl,
        .logLine "requested TOKEN_FILE but no INSTALLATION specified, skipping",
        .secretWrite argsNoInstall.TokenSecret ""]) :=
  ⟨rfl, by decide, by decide,
    exec_no_installation_outputs env0 argsNoInstall "SIGNEDJWT"
      { ID := 1, Slug := "my-app" }
      (Or.inr ⟨by decide, by decide⟩) rfl ⟨rfl, rfl, rfl⟩ (by decide)
      rfl rfl rfl rfl rfl rfl rfl (by decide) (by decide) rfl⟩

end Plugin
